import Mathlib

/-!
# Verification of the TodoList repository component (`src/ToDoListProgram.py`)

A shallow embedding of the `TodoList` class.  Each Python method becomes a
pure Lean function on an explicit task list; stateful mutation becomes
returning the new list.  Interactive effects are made explicit:

* `print` output that distinguishes branches of a method is modelled as a
  result variant (`AddResult`, `DeleteResult`, ...), since the Python methods
  collapse several branches into a single `False` return value and only the
  printed message tells them apart;
* `input(...)` confirmation prompts become a `String` argument
  (`confirmAnswer`), compared with `"yes"` after lowercasing, exactly as the
  source does;
* success or failure of the file write inside `save_tasks` is environmental,
  so mutating operations take a `saveOk : Bool` argument; each operation also
  reports whether it called `save_tasks` at all (the `saveCalled` component),
  so persistence-related claims can be stated;
* `datetime.now().strftime(...)` becomes a `now : String` argument.

The JSON layer (`json.dump` / `json.load`) is modelled at the level of JSON
values: `save_tasks` produces the JSON value written to the file and
`load_tasks` consumes a description of what reading the file yielded
(absent file, decode error, other I/O error, or a parsed JSON value).
-/

set_option autoImplicit false

namespace TodoList

/-- Python's `str.strip()` with no argument (used on descriptions in
`add_task`): removes leading and trailing whitespace.  Modelled over the
string's character list with the ASCII whitespace characters
(space, tab, carriage return, newline) of `Char.isWhitespace`. -/
def pyStrip (s : String) : String :=
  String.mk (((s.data.dropWhile Char.isWhitespace).reverse.dropWhile
    Char.isWhitespace).reverse)

/-- Python's `str.lower()` (used on the confirmation answers in
`delete_task` and `clear_completed`): lowercases each character. -/
def pyLower (s : String) : String :=
  String.mk (s.data.map Char.toLower)

/-- A task record, with the exact field set the source reads and writes:
`task['id']`, `task['description']`, `task['completed']`, `task['created_at']`
(source lines 44-49). -/
structure Task where
  id : Int
  description : String
  completed : Bool
  created_at : String
deriving Repr, DecidableEq

/-- Outcome of `add_task` (source lines 38-56): `invalidInput` is the
"description cannot be empty" branch, `ok id` the success print, and
`persistFailed` the fall-through `return False` after a failed save. -/
inductive AddResult
  | ok (id : Int)
  | invalidInput
  | persistFailed
deriving Repr, DecidableEq

/-- `TodoList.add_task` (source lines 38-56).  The Python guard is
`if not description or description.strip() == ''`; `not description` is true
exactly for the empty string.  On success the new task gets
`id = len(self.tasks) + 1`, the stripped description, `completed = False`
and the current timestamp, and is appended before `save_tasks` is called.
Returns (outcome, new task list, whether save_tasks was called). -/
def add_task (tasks : List Task) (description : String) (now : String)
    (saveOk : Bool) : AddResult × List Task × Bool :=
  if description = "" ∨ pyStrip description = "" then
    (.invalidInput, tasks, false)
  else
    let task : Task :=
      { id := (tasks.length : Int) + 1
        description := pyStrip description
        completed := false
        created_at := now }
    let tasks' := tasks ++ [task]
    if saveOk then (.ok task.id, tasks', true)
    else (.persistFailed, tasks', true)

/-- The data `TodoList.view_tasks` (source lines 58-89) computes: the filtered
subsequence `tasks_to_show` and the summary counts `total`, `completed`,
`pending = total - completed`.  The early returns for an empty list or an
empty filtered list only choose a message; the displayed data is as below. -/
structure ViewResult where
  shown : List Task
  total : Nat
  completed : Nat
  pending : Nat
deriving Repr, DecidableEq

/-- `TodoList.view_tasks` (source lines 58-89).  `show_all = false` is the
`PENDING_ONLY` filter: `[t for t in self.tasks if not t['completed']]`.
`completed` is `sum(1 for t in self.tasks if t['completed'])` and
`pending = total - completed`. -/
def view_tasks (tasks : List Task) (show_all : Bool) : ViewResult :=
  let tasks_to_show := if show_all then tasks else tasks.filter (fun t => !t.completed)
  let total := tasks.length
  let completed := (tasks.filter (fun t => t.completed)).length
  { shown := tasks_to_show
    total := total
    completed := completed
    pending := total - completed }

/-- Model of Python's `int(s)` applied to a string (used by `delete_task`,
`mark_complete`, `mark_incomplete` on the user-supplied id).  `int` strips
surrounding whitespace, allows one optional `+`/`-` sign, and then requires at
least one digit; any sign of the result is accepted, not only positive values.
(Underscore digit separators, which Python also tolerates, are not modelled;
no claim depends on them.) -/
def parsePyInt (s : String) : Option Int :=
  let t := (pyStrip s).data
  let signDigits : Int × List Char :=
    match t with
    | '-' :: rest => (-1, rest)
    | '+' :: rest => (1, rest)
    | _ => (1, t)
  let digits := signDigits.2
  if digits ≠ [] ∧ digits.all Char.isDigit then
    some (signDigits.1 *
      Int.ofNat (digits.foldl (fun acc c => acc * 10 + (c.toNat - 48)) 0))
  else none

/-- Outcome of `delete_task` (source lines 91-122): `invalidId` is the
"Task ID must be a number" branch (the caught `ValueError`), `notFound` the
"does not exist" branch, `cancelled` the "Deletion cancelled" branch,
`ok` the success print, and `persistFailed` the fall-through after a failed
save. -/
inductive DeleteResult
  | ok
  | invalidId
  | notFound
  | cancelled
  | persistFailed
deriving Repr, DecidableEq

/-- `TodoList.delete_task` (source lines 91-122).  Parses the id with
`int(...)`, linearly scans for the first task with that id (recording its
index), asks for confirmation, and on `'yes'` (after `.lower()`) pops that
index and saves.  Returns (outcome, new task list, whether save_tasks was
called). -/
def delete_task (tasks : List Task) (task_id : String) (confirmAnswer : String)
    (saveOk : Bool) : DeleteResult × List Task × Bool :=
  match parsePyInt task_id with
  | none => (.invalidId, tasks, false)
  | some tid =>
    match tasks.findIdx? (fun t => t.id == tid) with
    | none => (.notFound, tasks, false)
    | some task_index =>
      if pyLower confirmAnswer = "yes" then
        let tasks' := tasks.eraseIdx task_index
        if saveOk then (.ok, tasks', true)
        else (.persistFailed, tasks', true)
      else (.cancelled, tasks, false)

/-- Outcome of `mark_complete` / `mark_incomplete` (source lines 124-182):
`invalidId` for the caught `ValueError`, `notFound` for "does not exist",
`noOp` for "already marked as completed/incomplete" (returned before save is
ever called), `ok` for the success print, `persistFailed` for the
fall-through after a failed save. -/
inductive MarkResult
  | ok
  | invalidId
  | notFound
  | noOp
  | persistFailed
deriving Repr, DecidableEq

/-- The in-place mutation `task['completed'] = value` performed through the
reference obtained by the linear scan in `mark_complete`/`mark_incomplete`:
it updates the first list entry whose id matches and leaves everything else
untouched. -/
def setFirstCompleted (tasks : List Task) (tid : Int) (value : Bool) : List Task :=
  match tasks with
  | [] => []
  | t :: rest =>
    if t.id == tid then { t with completed := value } :: rest
    else t :: setFirstCompleted rest tid value

/-- `TodoList.mark_complete` (source lines 124-152).  Parses the id, scans for
the first task with that id, returns the no-op branch if it is already
completed, otherwise sets the flag and saves.  Returns
(outcome, new task list, whether save_tasks was called). -/
def mark_complete (tasks : List Task) (task_id : String) (saveOk : Bool) :
    MarkResult × List Task × Bool :=
  match parsePyInt task_id with
  | none => (.invalidId, tasks, false)
  | some tid =>
    match tasks.find? (fun t => t.id == tid) with
    | none => (.notFound, tasks, false)
    | some task =>
      if task.completed then (.noOp, tasks, false)
      else
        let tasks' := setFirstCompleted tasks tid true
        if saveOk then (.ok, tasks', true)
        else (.persistFailed, tasks', true)

/-- `TodoList.mark_incomplete` (source lines 154-182): the mirror image of
`mark_complete`, with the no-op branch on a task that is already pending. -/
def mark_incomplete (tasks : List Task) (task_id : String) (saveOk : Bool) :
    MarkResult × List Task × Bool :=
  match parsePyInt task_id with
  | none => (.invalidId, tasks, false)
  | some tid =>
    match tasks.find? (fun t => t.id == tid) with
    | none => (.notFound, tasks, false)
    | some task =>
      if !task.completed then (.noOp, tasks, false)
      else
        let tasks' := setFirstCompleted tasks tid false
        if saveOk then (.ok, tasks', true)
        else (.persistFailed, tasks', true)

/-- Outcome of `clear_completed` (source lines 184-202): `nothingToClear` for
"No completed tasks to clear" (returned before the confirmation prompt),
`cancelled` for "Operation cancelled", `ok n` for the success print reporting
`len(completed_tasks)` cleared, `persistFailed` for the fall-through after a
failed save. -/
inductive ClearResult
  | ok (count : Nat)
  | nothingToClear
  | cancelled
  | persistFailed
deriving Repr, DecidableEq

/-- `TodoList.clear_completed` (source lines 184-202).  Computes the completed
subset first; if it is empty, returns at once (no prompt).  Otherwise prompts,
and on `'yes'` keeps only the non-completed tasks and saves, reporting the
size of the previously computed completed subset.  Returns
(outcome, new task list, whether the confirmation prompt was shown, whether
save_tasks was called). -/
def clear_completed (tasks : List Task) (confirmAnswer : String) (saveOk : Bool) :
    ClearResult × List Task × Bool × Bool :=
  let completed_tasks := tasks.filter (fun t => t.completed)
  if completed_tasks.isEmpty then (.nothingToClear, tasks, false, false)
  else if pyLower confirmAnswer = "yes" then
    let tasks' := tasks.filter (fun t => !t.completed)
    if saveOk then (.ok completed_tasks.length, tasks', true, true)
    else (.persistFailed, tasks', true, true)
  else (.cancelled, tasks, true, false)

/-- JSON values, the data `json.dump` writes and `json.load` returns. -/
inductive Json
  | null
  | bool (b : Bool)
  | num (n : Int)
  | str (s : String)
  | arr (elems : List Json)
  | obj (fields : List (String × Json))

/-- The JSON object `json.dump` writes for one task dict (source lines 44-49
fix the keys; `json.dump` serialises the dict's entries in insertion order). -/
def encodeTask (t : Task) : Json :=
  .obj [("id", .num t.id), ("description", .str t.description),
        ("completed", .bool t.completed), ("created_at", .str t.created_at)]

/-- `TodoList.save_tasks` (source lines 28-36) writes
`json.dump(self.tasks, file, indent=4)`: the JSON value produced is the array
of task objects.  (The `indent=4` pretty-printing and the success/failure of
the file write are environmental and do not change this value.) -/
def save_tasks (tasks : List Task) : Json :=
  .arr (tasks.map encodeTask)

/-- Python dict key lookup `fields['k']` on a decoded JSON object: first
binding with the given key, independent of field order. -/
def lookupField (fields : List (String × Json)) (k : String) : Option Json :=
  match fields with
  | [] => none
  | (k', v) :: rest => if k' = k then some v else lookupField rest k

/-- Reading one task back from its JSON object, by the key lookups the source
performs on loaded tasks (`task['id']`, `task['description']`,
`task['completed']`, `task['created_at']`), in any field order as the storage
format of spec section 6 requires. -/
def decodeTask (j : Json) : Option Task :=
  match j with
  | .obj fields =>
    match lookupField fields "id", lookupField fields "description",
          lookupField fields "completed", lookupField fields "created_at" with
    | some (.num i), some (.str d), some (.bool c), some (.str ca) =>
      some { id := i, description := d, completed := c, created_at := ca }
    | _, _, _, _ => none
  | _ => none

/-- Reading a task list back from a JSON array, element by element. -/
def decodeTaskList (js : List Json) : Option (List Task) :=
  match js with
  | [] => some []
  | j :: rest =>
    match decodeTask j, decodeTaskList rest with
    | some t, some ts => some (t :: ts)
    | _, _ => none

/-- Reading a task list back from the JSON value stored in the file. -/
def decodeTasks (j : Json) : Option (List Task) :=
  match j with
  | .arr elems => decodeTaskList elems
  | _ => none

/-- The messages `load_tasks` can log: the "corrupted, starting with empty
list" warning (caught `json.JSONDecodeError`) and the "Error loading tasks"
message (caught general `Exception`). -/
inductive LogMsg
  | corruptWarning
  | loadError
deriving Repr, DecidableEq

/-- What reading the backing file can yield, the input to `load_tasks`:
the file is absent (`os.path.exists` false), present and parsed to a JSON
value, present but `json.load` raises `JSONDecodeError`, or some other I/O
exception occurred. -/
inductive LoadInput
  | absent
  | wellFormed (j : Json)
  | malformed
  | ioError

/-- `TodoList.load_tasks` (source lines 13-26).  A missing file yields `[]`
silently; a parsed file yields exactly the parsed JSON value (the source
performs no validation on it); a `JSONDecodeError` is caught, a warning
printed, and `[]` returned; any other exception is caught by the blanket
`except Exception`, the error printed, and `[]` returned.  The function is
total: no branch re-raises. -/
def load_tasks (input : LoadInput) : Json × Option LogMsg :=
  match input with
  | .absent => (.arr [], none)
  | .wellFormed j => (j, none)
  | .malformed => (.arr [], some .corruptWarning)
  | .ioError => (.arr [], some .loadError)

/-! ## Helper lemmas -/

/-- Stripping the empty string yields the empty string. -/
theorem pyStrip_empty : pyStrip "" = "" := rfl

/-- The success equation of `add_task`: with a description that survives
stripping and a successful save, the stripped task is appended with
`id = length + 1`. -/
theorem add_task_valid_eq (tasks : List Task) (description now : String)
    (h : pyStrip description ≠ "") :
    add_task tasks description now true =
      (.ok ((tasks.length : Int) + 1),
       tasks ++ [{ id := (tasks.length : Int) + 1,
                   description := pyStrip description,
                   completed := false, created_at := now }], true) := by
  have hne : ¬(description = "" ∨ pyStrip description = "") := by
    rintro (rfl | hs)
    · exact h pyStrip_empty
    · exact h hs
  simp [add_task, hne]

/-! ## Claims -/

/-- C1.  For every store state and every description that is non-empty after
trimming, `add` succeeds, increases the total task count by exactly 1, and
the new task is appended with id equal to the pre-add count + 1,
`completed = false`, and the trimmed description. -/
theorem add_task_valid (tasks : List Task) (description now : String)
    (h : pyStrip description ≠ "") :
    (add_task tasks description now true).1 = .ok ((tasks.length : Int) + 1) ∧
    (add_task tasks description now true).2.1 =
      tasks ++ [{ id := (tasks.length : Int) + 1,
                  description := pyStrip description,
                  completed := false, created_at := now }] ∧
    (add_task tasks description now true).2.1.length = tasks.length + 1 := by
  rw [add_task_valid_eq tasks description now h]
  simp

/-- Witness for C1: adding `"hi"` to the empty store yields id 1 and a
one-element list. -/
theorem add_task_valid_witness :
    (add_task [] "hi" "2024-01-01 00:00:00" true).1 = .ok 1 ∧
    (add_task [] "hi" "2024-01-01 00:00:00" true).2.1 =
      [{ id := 1, description := "hi", completed := false,
         created_at := "2024-01-01 00:00:00" }] ∧
    (add_task [] "hi" "2024-01-01 00:00:00" true).2.1.length = 1 := by
  have h := add_task_valid [] "hi" "2024-01-01 00:00:00" (by decide)
  simpa using h

/-- C8.  For every store state and every description that strips to the empty
string (empty or all whitespace), `add_task` fails with `invalidInput`,
returns the task list unchanged, and never calls `save_tasks`. -/
theorem add_task_empty_invalid (tasks : List Task) (description now : String)
    (saveOk : Bool) (h : pyStrip description = "") :
    add_task tasks description now saveOk = (.invalidInput, tasks, false) := by
  simp only [add_task, if_pos (Or.inr h)]

/-- Witness for C8: a whitespace-only description is rejected on a concrete
store, which is left unchanged with no save. -/
theorem add_task_empty_invalid_witness :
    add_task [{ id := 1, description := "a", completed := false,
                created_at := "x" }] "   " "t" true =
      (.invalidInput,
       [{ id := 1, description := "a", completed := false, created_at := "x" }],
       false) :=
  add_task_empty_invalid _ "   " "t" true (by decide)

/-- C3.  `view_tasks` with the `PENDING_ONLY` filter (`show_all = false`)
shows exactly the subsequence of tasks whose completed flag is false, in
original insertion order (it is a sublist of the store, and membership is
exactly membership among the pending tasks), and the reported counts are
`total = length`, `completed = ` number of completed tasks, and
`pending = total - completed`, which together with `completed ≤ total` gives
`pending + completed = total`. -/
theorem view_tasks_pending_only (tasks : List Task) :
    (view_tasks tasks false).shown = tasks.filter (fun t => !t.completed) ∧
    (view_tasks tasks false).shown.Sublist tasks ∧
    (∀ t, t ∈ (view_tasks tasks false).shown ↔ t ∈ tasks ∧ t.completed = false) ∧
    (view_tasks tasks false).total = tasks.length ∧
    (view_tasks tasks false).completed =
      (tasks.filter (fun t => t.completed)).length ∧
    (view_tasks tasks false).completed ≤ (view_tasks tasks false).total ∧
    (view_tasks tasks false).pending =
      (view_tasks tasks false).total - (view_tasks tasks false).completed ∧
    (view_tasks tasks false).pending + (view_tasks tasks false).completed =
      (view_tasks tasks false).total := by
  refine ⟨rfl, ?_, ?_, rfl, rfl, ?_, rfl, ?_⟩
  · exact List.filter_sublist tasks
  · intro t
    simp [view_tasks, List.mem_filter]
  · exact List.length_filter_le _ tasks
  · have hle : (tasks.filter (fun t => t.completed)).length ≤ tasks.length :=
      List.length_filter_le _ tasks
    simpa [view_tasks] using Nat.sub_add_cancel hle

/-- A task object decodes back to the task it encodes. -/
theorem decodeTask_encodeTask (t : Task) : decodeTask (encodeTask t) = some t := by
  cases t
  rfl

/-- A list of task objects decodes back to the list it encodes. -/
theorem decodeTaskList_map_encodeTask (ts : List Task) :
    decodeTaskList (ts.map encodeTask) = some ts := by
  induction ts with
  | nil => rfl
  | cons t rest ih =>
    simp only [List.map, decodeTaskList, decodeTask_encodeTask t, ih]

/-- C4.  Round-trip: loading the JSON value that `save_tasks` writes for any
task sequence hands back exactly that JSON value (with nothing logged), and
reading the tasks out of it recovers the original sequence — same length,
same order, and every id, description, completed flag and created_at
timestamp equal. -/
theorem save_load_roundtrip (ts : List Task) :
    load_tasks (.wellFormed (save_tasks ts)) = (save_tasks ts, none) ∧
    decodeTasks (save_tasks ts) = some ts := by
  refine ⟨rfl, ?_⟩
  simp only [save_tasks, decodeTasks, decodeTaskList_map_encodeTask ts]

/-- Decomposition of a successful `findIdx?` search: the list splits as a
prefix of non-matching elements of length `i`, the matching element, and the
rest. -/
theorem findIdx?_decomp {α : Type} (p : α → Bool) (l : List α) (i : Nat)
    (h : List.findIdx? p l = some i) :
    ∃ pre x post, l = pre ++ x :: post ∧ pre.length = i ∧
      (∀ u ∈ pre, p u = false) ∧ p x = true := by
  induction l generalizing i with
  | nil => exact Option.noConfusion h
  | cons a xs ih =>
    rw [List.findIdx?_cons] at h
    by_cases hp : p a = true
    · rw [if_pos hp] at h
      obtain rfl : (0 : Nat) = i := by simpa using h
      exact ⟨[], a, xs, rfl, rfl, by simp, hp⟩
    · rw [if_neg hp, List.findIdx?_succ] at h
      cases hfi : List.findIdx? p xs with
      | none => rw [hfi] at h; simp at h
      | some j =>
        rw [hfi] at h
        simp only [Option.map_some'] at h
        rw [Option.some_inj] at h
        obtain ⟨pre, x, post, hl, hlen, hpre, hx⟩ := ih j hfi
        refine ⟨a :: pre, x, post, by rw [hl, List.cons_append],
          by simp [hlen, ← h], ?_, hx⟩
        intro u hu
        rcases List.mem_cons.mp hu with rfl | hu
        · exact Bool.not_eq_true _ ▸ (by simpa using hp)
        · exact hpre u hu

/-- Removing the element after a non-matching prefix. -/
theorem eraseIdx_append_cons {α : Type} (pre : List α) (x : α) (post : List α) :
    (pre ++ x :: post).eraseIdx pre.length = pre ++ post := by
  rw [List.eraseIdx_eq_take_drop_succ]
  have htake : (pre ++ x :: post).take pre.length = pre := List.take_left pre _
  have hdrop : (pre ++ x :: post).drop (pre.length + 1) = post := by
    have : pre ++ x :: post = (pre ++ [x]) ++ post := by simp
    rw [this]
    exact List.drop_left' (by simp)
  rw [htake, hdrop]

/-- C5 counterexample.  `"-1"` does not parse as a *positive* integer, yet
`delete_task` does not fail with `invalidId` on it: Python's `int` accepts
the sign, so the lookup runs and fails with `notFound` instead. -/
theorem delete_task_negative_id_counterexample :
    (delete_task [] "-1" "yes" true).1 = .notFound ∧
    (delete_task [] "-1" "yes" true).1 ≠ .invalidId := by
  constructor
  · decide
  · decide

/-- C5 (amended).  For every store state: an input that does not parse as an
integer (of any sign) fails with `invalidId` and leaves the sequence
unchanged without saving; an integer matching no live task fails with
`notFound` and leaves the sequence unchanged; an integer matching a live
task with a non-affirmative confirmation answer returns the distinct
`cancelled` outcome and leaves the sequence unchanged; with affirmative
confirmation it removes exactly the first task with that id and no other
(the result is the non-matching prefix followed by the tasks after the
removed one). -/
theorem delete_task_spec (tasks : List Task) (idText confirmAnswer : String) :
    (parsePyInt idText = none →
      delete_task tasks idText confirmAnswer true = (.invalidId, tasks, false)) ∧
    (∀ tid, parsePyInt idText = some tid →
      ((∀ t ∈ tasks, t.id ≠ tid) →
        delete_task tasks idText confirmAnswer true = (.notFound, tasks, false)) ∧
      ((∃ t ∈ tasks, t.id = tid) → pyLower confirmAnswer ≠ "yes" →
        delete_task tasks idText confirmAnswer true = (.cancelled, tasks, false)) ∧
      ((∃ t ∈ tasks, t.id = tid) → pyLower confirmAnswer = "yes" →
        (delete_task tasks idText confirmAnswer true).1 = .ok ∧
        ∃ pre t post, tasks = pre ++ t :: post ∧
          (∀ u ∈ pre, u.id ≠ tid) ∧ t.id = tid ∧
          (delete_task tasks idText confirmAnswer true).2.1 = pre ++ post)) := by
  constructor
  · intro hp
    simp only [delete_task, hp]
  · intro tid hp
    have hnone : (∀ t ∈ tasks, t.id ≠ tid) ↔
        tasks.findIdx? (fun t => t.id == tid) = none := by
      rw [List.findIdx?_eq_none_iff]
      constructor
      · intro h t ht
        simpa using h t ht
      · intro h t ht
        simpa using h t ht
    refine ⟨?_, ?_, ?_⟩
    · intro hno
      simp only [delete_task, hp, hnone.mp hno]
    · intro hyes hc
      obtain ⟨t, ht, htid⟩ := hyes
      cases hfi : tasks.findIdx? (fun u => u.id == tid) with
      | none =>
        exact absurd htid ((hnone.mpr hfi) t ht)
      | some i =>
        simp only [delete_task, hp, hfi, if_neg hc]
    · intro hyes hc
      obtain ⟨t, ht, htid⟩ := hyes
      cases hfi : tasks.findIdx? (fun u => u.id == tid) with
      | none =>
        exact absurd htid ((hnone.mpr hfi) t ht)
      | some i =>
        obtain ⟨pre, x, post, hl, hlen, hpre, hx⟩ := findIdx?_decomp _ tasks i hfi
        refine ⟨by simp [delete_task, hp, hfi, hc], pre, x, post, hl,
          ?_, by simpa using hx, ?_⟩
        · intro u hu
          have := hpre u hu
          simpa using this
        · simp [delete_task, hp, hfi, hc]
          rw [hl, ← hlen, eraseIdx_append_cons]

/-- Witness for C5 (amended): deleting task 1 from a one-task store with
confirmation `"yes"` succeeds and empties the store. -/
theorem delete_task_spec_witness :
    (delete_task [{ id := 1, description := "a", completed := false,
                    created_at := "x" }] "1" "yes" true).1 = .ok := by
  have h := delete_task_spec
    [{ id := 1, description := "a", completed := false, created_at := "x" }]
    "1" "yes"
  exact ((h.2 1 (by decide)).2.2 (by decide) (by decide)).1

/-- Decomposition of a successful `find?` search together with the effect of
`setFirstCompleted`: the list splits around the first matching task, and only
that task's `completed` field is rewritten. -/
theorem find?_setFirstCompleted_decomp (tasks : List Task) (tid : Int) (v : Bool)
    (t : Task) (h : tasks.find? (fun u => u.id == tid) = some t) :
    t.id = tid ∧
    ∃ pre post, tasks = pre ++ t :: post ∧ (∀ u ∈ pre, u.id ≠ tid) ∧
      setFirstCompleted tasks tid v = pre ++ { t with completed := v } :: post := by
  induction tasks with
  | nil => exact Option.noConfusion h
  | cons a rest ih =>
    by_cases ha : (a.id == tid) = true
    · rw [List.find?_cons_of_pos rest ha] at h
      obtain rfl : a = t := by simpa using h
      refine ⟨by simpa using ha, [], rest, rfl, by simp, ?_⟩
      simp [setFirstCompleted, ha]
    · rw [List.find?_cons_of_neg rest ha] at h
      obtain ⟨htid, pre, post, hl, hpre, hset⟩ := ih h
      refine ⟨htid, a :: pre, post, by rw [hl, List.cons_append], ?_, ?_⟩
      · intro u hu
        rcases List.mem_cons.mp hu with rfl | hu
        · simpa using ha
        · exact hpre u hu
      · simp only [setFirstCompleted, if_neg ha, hset, List.cons_append]

/-- Positions other than the replaced one agree between
`pre ++ x :: post` and `pre ++ y :: post`. -/
theorem getElem?_append_cons_ne {α : Type} (pre post : List α) (x y : α)
    (j : Nat) (hj : j ≠ pre.length) :
    (pre ++ x :: post)[j]? = (pre ++ y :: post)[j]? := by
  rcases Nat.lt_or_ge j pre.length with hlt | hge
  · rw [List.getElem?_append_left hlt, List.getElem?_append_left hlt]
  · have hgt : pre.length < j := lt_of_le_of_ne hge (Ne.symm hj)
    rw [List.getElem?_append_right hge, List.getElem?_append_right hge]
    have hk : j - pre.length = (j - pre.length - 1) + 1 := by omega
    rw [hk]
    simp

/-- C6.  For a live task found by id: `mark_complete` on an already-completed
task returns the `noOp` outcome with the store unchanged and `save_tasks`
never called, while on a pending task it succeeds, calls `save_tasks`, and
rewrites exactly the first matching task's flag to completed; symmetrically,
`mark_incomplete` is a no-op without persisting on a pending task and flips
and persists on a completed one. -/
theorem setCompleted_spec (tasks : List Task) (idText : String) (tid : Int)
    (t : Task) (hp : parsePyInt idText = some tid)
    (hf : tasks.find? (fun u => u.id == tid) = some t) :
    (t.completed = true →
      mark_complete tasks idText true = (.noOp, tasks, false)) ∧
    (t.completed = false →
      (mark_complete tasks idText true).1 = .ok ∧
      (mark_complete tasks idText true).2.2 = true ∧
      ∃ pre post, tasks = pre ++ t :: post ∧ (∀ u ∈ pre, u.id ≠ tid) ∧
        (mark_complete tasks idText true).2.1 =
          pre ++ { t with completed := true } :: post) ∧
    (t.completed = false →
      mark_incomplete tasks idText true = (.noOp, tasks, false)) ∧
    (t.completed = true →
      (mark_incomplete tasks idText true).1 = .ok ∧
      (mark_incomplete tasks idText true).2.2 = true ∧
      ∃ pre post, tasks = pre ++ t :: post ∧ (∀ u ∈ pre, u.id ≠ tid) ∧
        (mark_incomplete tasks idText true).2.1 =
          pre ++ { t with completed := false } :: post) := by
  refine ⟨?_, ?_, ?_, ?_⟩
  · intro hc
    simp [mark_complete, hp, hf, hc]
  · intro hc
    obtain ⟨htid, pre, post, hl, hpre, hset⟩ :=
      find?_setFirstCompleted_decomp tasks tid true t hf
    exact ⟨by simp [mark_complete, hp, hf, hc], by simp [mark_complete, hp, hf, hc],
      pre, post, hl, hpre, by simp [mark_complete, hp, hf, hc, hset]⟩
  · intro hc
    simp [mark_incomplete, hp, hf, hc]
  · intro hc
    obtain ⟨htid, pre, post, hl, hpre, hset⟩ :=
      find?_setFirstCompleted_decomp tasks tid false t hf
    exact ⟨by simp [mark_incomplete, hp, hf, hc],
      by simp [mark_incomplete, hp, hf, hc],
      pre, post, hl, hpre, by simp [mark_incomplete, hp, hf, hc, hset]⟩

/-- Witness for C6: in a concrete two-task store whose task 1 is already
completed, `mark_complete "1"` returns `noOp`, leaves the store unchanged,
and never calls `save_tasks`. -/
theorem setCompleted_spec_witness :
    mark_complete
      [{ id := 1, description := "a", completed := true, created_at := "x" },
       { id := 2, description := "b", completed := false, created_at := "x" }]
      "1" true =
      (.noOp,
       [{ id := 1, description := "a", completed := true, created_at := "x" },
        { id := 2, description := "b", completed := false, created_at := "x" }],
       false) := by
  have h := setCompleted_spec
    [{ id := 1, description := "a", completed := true, created_at := "x" },
     { id := 2, description := "b", completed := false, created_at := "x" }]
    "1" 1
    { id := 1, description := "a", completed := true, created_at := "x" }
    (by decide) (by decide)
  exact h.1 rfl

/-- C10.  Frame property of a successful mark: when `mark_complete` flips a
pending task found by id (and symmetrically `mark_incomplete` on a completed
one), the sequence's length is unchanged and there is a position `i` holding
the matched task such that the new sequence agrees with the old one at every
position other than `i`, while position `i` now holds a task with the same
id, description and created_at and only the completed flag changed. -/
theorem setCompleted_frame (tasks : List Task) (idText : String) (tid : Int)
    (t : Task) (hp : parsePyInt idText = some tid)
    (hf : tasks.find? (fun u => u.id == tid) = some t) :
    (t.completed = false →
      ∃ i : Nat,
        (mark_complete tasks idText true).2.1.length = tasks.length ∧
        tasks[i]? = some t ∧
        (∀ u, (mark_complete tasks idText true).2.1[i]? = some u →
          u.id = t.id ∧ u.description = t.description ∧
          u.created_at = t.created_at ∧ u.completed = true) ∧
        (∀ j, j ≠ i →
          (mark_complete tasks idText true).2.1[j]? = tasks[j]?)) ∧
    (t.completed = true →
      ∃ i : Nat,
        (mark_incomplete tasks idText true).2.1.length = tasks.length ∧
        tasks[i]? = some t ∧
        (∀ u, (mark_incomplete tasks idText true).2.1[i]? = some u →
          u.id = t.id ∧ u.description = t.description ∧
          u.created_at = t.created_at ∧ u.completed = false) ∧
        (∀ j, j ≠ i →
          (mark_incomplete tasks idText true).2.1[j]? = tasks[j]?)) := by
  constructor
  · intro hc
    obtain ⟨htid, pre, post, hl, hpre, hset⟩ :=
      find?_setFirstCompleted_decomp tasks tid true t hf
    have hres : (mark_complete tasks idText true).2.1 =
        pre ++ { t with completed := true } :: post := by
      simp [mark_complete, hp, hf, hc, hset]
    refine ⟨pre.length, ?_, ?_, ?_, ?_⟩
    · rw [hres, hl]; simp
    · rw [hl, List.getElem?_append_right (le_refl _)]
      simp
    · intro u hu
      rw [hres, List.getElem?_append_right (le_refl _)] at hu
      simp at hu
      subst hu
      exact ⟨rfl, rfl, rfl, rfl⟩
    · intro j hj
      rw [hres, hl]
      exact getElem?_append_cons_ne pre post _ _ j hj
  · intro hc
    obtain ⟨htid, pre, post, hl, hpre, hset⟩ :=
      find?_setFirstCompleted_decomp tasks tid false t hf
    have hres : (mark_incomplete tasks idText true).2.1 =
        pre ++ { t with completed := false } :: post := by
      simp [mark_incomplete, hp, hf, hc, hset]
    refine ⟨pre.length, ?_, ?_, ?_, ?_⟩
    · rw [hres, hl]; simp
    · rw [hl, List.getElem?_append_right (le_refl _)]
      simp
    · intro u hu
      rw [hres, List.getElem?_append_right (le_refl _)] at hu
      simp at hu
      subst hu
      exact ⟨rfl, rfl, rfl, rfl⟩
    · intro j hj
      rw [hres, hl]
      exact getElem?_append_cons_ne pre post _ _ j hj

/-- Witness for C10: marking the pending task 2 of a concrete two-task store
complete changes only position 1's completed flag. -/
theorem setCompleted_frame_witness :
    ∃ i : Nat,
      (mark_complete
        [{ id := 1, description := "a", completed := true, created_at := "x" },
         { id := 2, description := "b", completed := false, created_at := "y" }]
        "2" true).2.1.length = 2 ∧
      ([{ id := 1, description := "a", completed := true, created_at := "x" },
        { id := 2, description := "b", completed := false, created_at := "y" }] :
          List Task)[i]? =
        some { id := 2, description := "b", completed := false,
               created_at := "y" } := by
  have h := (setCompleted_frame
    [{ id := 1, description := "a", completed := true, created_at := "x" },
     { id := 2, description := "b", completed := false, created_at := "y" }]
    "2" 2
    { id := 2, description := "b", completed := false, created_at := "y" }
    (by decide) (by decide)).1 rfl
  obtain ⟨i, hlen, hi, _, _⟩ := h
  exact ⟨i, hlen, hi⟩

/-- The pending and completed tasks together account for the whole store. -/
theorem length_filter_not_add (tasks : List Task) :
    (tasks.filter (fun t => !t.completed)).length +
      (tasks.filter (fun t => t.completed)).length = tasks.length := by
  rw [← List.countP_eq_length_filter, ← List.countP_eq_length_filter]
  have h := List.length_eq_countP_add_countP (fun t : Task => t.completed) tasks
  have hc : List.countP (fun a : Task => decide ¬a.completed = true) tasks =
      List.countP (fun t : Task => !t.completed) tasks :=
    List.countP_congr (by intro x _; simp)
  omega

/-- C7.  `clear_completed` with no completed task returns `nothingToClear`,
never shows the confirmation prompt, never saves, and leaves the store
unchanged; with at least one completed task and an affirmative answer it
reports exactly the number of completed tasks as cleared, keeps precisely
the pending tasks in their original relative order (a sublist containing
exactly the non-completed members), removes exactly the completed ones (the
lengths add back up to the original total), and saves. -/
theorem clear_completed_spec (tasks : List Task) (confirmAnswer : String) :
    ((∀ t ∈ tasks, t.completed = false) →
      clear_completed tasks confirmAnswer true =
        (.nothingToClear, tasks, false, false)) ∧
    ((∃ t ∈ tasks, t.completed = true) → pyLower confirmAnswer = "yes" →
      (clear_completed tasks confirmAnswer true).1 =
        .ok (tasks.filter (fun t => t.completed)).length ∧
      (clear_completed tasks confirmAnswer true).2.1.Sublist tasks ∧
      (∀ t, t ∈ (clear_completed tasks confirmAnswer true).2.1 ↔
        t ∈ tasks ∧ t.completed = false) ∧
      (clear_completed tasks confirmAnswer true).2.1.length +
        (tasks.filter (fun t => t.completed)).length = tasks.length ∧
      (clear_completed tasks confirmAnswer true).2.2.1 = true ∧
      (clear_completed tasks confirmAnswer true).2.2.2 = true) := by
  constructor
  · intro h
    have hnil : tasks.filter (fun t => t.completed) = [] := by
      rw [List.filter_eq_nil_iff]
      intro a ha
      simp [h a ha]
    simp [clear_completed, hnil]
  · intro hyes hconf
    obtain ⟨t0, ht0, hc0⟩ := hyes
    have hne : tasks.filter (fun t => t.completed) ≠ [] := by
      intro hnil
      rw [List.filter_eq_nil_iff] at hnil
      have hcontra := hnil t0 ht0
      simp only [hc0] at hcontra
      exact hcontra trivial
    have hbr : clear_completed tasks confirmAnswer true =
        (.ok (tasks.filter (fun t => t.completed)).length,
         tasks.filter (fun t => !t.completed), true, true) := by
      simp [clear_completed, List.isEmpty_iff, hne, hconf]
    rw [hbr]
    refine ⟨rfl, List.filter_sublist tasks, ?_, length_filter_not_add tasks, rfl, rfl⟩
    intro t
    simp [List.mem_filter]

/-- Witness for C7: clearing a concrete store with one completed and one
pending task, answering `"yes"`, reports 1 cleared and keeps the pending
task. -/
theorem clear_completed_spec_witness :
    (clear_completed
      [{ id := 1, description := "a", completed := true, created_at := "x" },
       { id := 2, description := "b", completed := false, created_at := "y" }]
      "yes" true).1 = .ok 1 ∧
    ({ id := 2, description := "b", completed := false, created_at := "y" } :
        Task) ∈
      (clear_completed
        [{ id := 1, description := "a", completed := true, created_at := "x" },
         { id := 2, description := "b", completed := false, created_at := "y" }]
        "yes" true).2.1 := by
  have h := (clear_completed_spec
    [{ id := 1, description := "a", completed := true, created_at := "x" },
     { id := 2, description := "b", completed := false, created_at := "y" }]
    "yes").2 (by decide) (by decide)
  refine ⟨by simpa using h.1, ?_⟩
  exact (h.2.2.1 _).mpr (by decide)

/-- C2 counterexample.  In a state reached after a deletion, a successful add
hands out an id that an existing live task already carries: from the
three-task store with ids 1, 2, 3, deleting task 1 (confirmed) leaves ids
2 and 3, and the next add assigns `id = count + 1 = 3`, colliding with the
live task of id 3. -/
theorem add_id_collision_counterexample :
    (delete_task
      [{ id := 1, description := "a", completed := false, created_at := "x" },
       { id := 2, description := "b", completed := false, created_at := "x" },
       { id := 3, description := "c", completed := false, created_at := "x" }]
      "1" "yes" true).2.1 =
      [{ id := 2, description := "b", completed := false, created_at := "x" },
       { id := 3, description := "c", completed := false, created_at := "x" }] ∧
    (add_task
      [{ id := 2, description := "b", completed := false, created_at := "x" },
       { id := 3, description := "c", completed := false, created_at := "x" }]
      "d" "t" true).1 = .ok 3 ∧
    (∃ u ∈ ([{ id := 2, description := "b", completed := false, created_at := "x" },
             { id := 3, description := "c", completed := false,
               created_at := "x" }] : List Task), u.id = 3) := by
  refine ⟨by decide, by decide, ?_⟩
  exact ⟨{ id := 3, description := "c", completed := false, created_at := "x" },
    by decide, rfl⟩

/-- C2 (amended).  Immediately after a successful add, the new task's id
(`count + 1`) is distinct from the id of every other live task *provided*
every live id is at most the current count — which holds in every state
reached without deletions, where the live ids are exactly 1..count.  After a
deletion this bound can fail and the new id can collide with a live task
(see the counterexample). -/
theorem add_id_fresh_when_ids_bounded (tasks : List Task)
    (description now : String)
    (hids : ∀ t ∈ tasks, t.id ≤ (tasks.length : Int))
    (h : pyStrip description ≠ "") :
    ∃ newTask : Task,
      (add_task tasks description now true).2.1 = tasks ++ [newTask] ∧
      newTask.id = (tasks.length : Int) + 1 ∧
      ∀ t ∈ tasks, t.id ≠ newTask.id := by
  rw [add_task_valid_eq tasks description now h]
  refine ⟨_, rfl, rfl, ?_⟩
  intro t ht
  have := hids t ht
  simp only []
  omega

/-- Witness for C2 (amended): in the deletion-free two-task store with ids
1 and 2, the added task gets id 3, held by no live task. -/
theorem add_id_fresh_witness :
    ∃ newTask : Task,
      (add_task
        [{ id := 1, description := "a", completed := false, created_at := "x" },
         { id := 2, description := "b", completed := false, created_at := "x" }]
        "c" "t" true).2.1 =
        [{ id := 1, description := "a", completed := false, created_at := "x" },
         { id := 2, description := "b", completed := false, created_at := "x" }]
          ++ [newTask] ∧
      newTask.id = 3 ∧
      ∀ t ∈ ([{ id := 1, description := "a", completed := false,
                created_at := "x" },
              { id := 2, description := "b", completed := false,
                created_at := "x" }] : List Task), t.id ≠ newTask.id := by
  have h := add_id_fresh_when_ids_bounded
    [{ id := 1, description := "a", completed := false, created_at := "x" },
     { id := 2, description := "b", completed := false, created_at := "x" }]
    "c" "t" (by decide) (by decide)
  simpa using h

/-- C9.  `load_tasks` is a total function — every way the read can go
produces a store, none re-raises — and: an absent file yields the empty
sequence with nothing logged, a file whose content fails to parse
(`json.JSONDecodeError`) yields the empty sequence with the corruption
warning logged, any other I/O failure yields the empty sequence with the
error logged, and a successfully parsed file yields exactly the parsed
value. -/
theorem load_tasks_spec (input : LoadInput) :
    (input = .absent → load_tasks input = (.arr [], none)) ∧
    (input = .malformed →
      load_tasks input = (.arr [], some .corruptWarning)) ∧
    (input = .ioError → load_tasks input = (.arr [], some .loadError)) ∧
    (∀ j, input = .wellFormed j → load_tasks input = (j, none)) := by
  refine ⟨?_, ?_, ?_, ?_⟩
  · rintro rfl; rfl
  · rintro rfl; rfl
  · rintro rfl; rfl
  · rintro j rfl; rfl

/-- Witness for C9: a malformed file concretely initializes the empty store
and logs the corruption warning. -/
theorem load_tasks_spec_witness :
    load_tasks .malformed = (.arr [], some .corruptWarning) :=
  (load_tasks_spec .malformed).2.1 rfl

end TodoList
